import Mathlib

/-!
Shallow embedding of the certmagic-oss storage adapter (src/storage/storage.go).

The Go code wraps an Alibaba Cloud OSS client behind the certmagic.Storage
interface: Store/Load encrypt and decrypt through a tink.AEAD codec (with a
pass-through "cleartext" codec when no key is configured), Delete/Stat/List
map OSS responses to the certmagic error conventions, and Lock/Unlock build a
lease-based distributed lock from OSS's conditional-create primitive
(the ForbidOverwrite header on PutObject).

Modelling conventions:
  * bytes are `List Nat`; the `[]byte(key)` associated data passed to the
    AEAD is modelled as the key string itself (the conversion is injective);
  * the remote bucket is an association list from keys to stored objects,
    each carrying its bytes and a last-modified timestamp in seconds;
  * timestamps and durations are `Nat` seconds: `LockExpiration` is 60
    seconds (1 minute in the Go source) and `LockPollInterval` 1 second;
  * OSS RPC failures are `OSSErr`: either a service error carrying an OSS
    error code string, or a transport-level failure;
  * the Lock loop's interaction with the remote service is modelled in
    oracle style: each loop iteration reads the responses of its RPCs and
    the state of the caller's cancellation signal from a `LockIter` record,
    and the loop additionally emits the list of observable `LockEvent`s
    (conditional-put attempts, head probes, stale deletes, poll sleeps).
-/

namespace CMOSS

/-- Errors returned by the OSS client: a service error carrying the OSS
error code (for example "NoSuchKey"), or a transport failure such as a
timeout or a cancelled context. -/
inductive OSSErr where
  | service (code : String)
  | transport (msg : String)
deriving DecidableEq

/-- Mirrors the Go checks of the form
`errors.As(err, &serviceErr) && serviceErr.ErrorCode() == "NoSuchKey"`:
transport errors are not `oss.ServiceError`s, so the check is false for
them (storage.go lines 115-118, 146-150, 356-360). -/
def OSSErr.isNoSuchKey : OSSErr → Bool
  | .service c => c == "NoSuchKey"
  | .transport _ => false

/-- Mirrors storage.go line 285: the conditional put failed because the
lock object already exists. -/
def OSSErr.isAlreadyExists : OSSErr → Bool
  | .service c =>
      c == "PreconditionFailed" || c == "ObjectAlreadyExists" || c == "FileAlreadyExists"
  | .transport _ => false

/-- The tink.AEAD interface consumed by the adapter: encrypt and decrypt a
byte payload under associated data (here always the object's key name). -/
structure AEAD where
  encrypt : List Nat → String → Except String (List Nat)
  decrypt : List Nat → String → Except String (List Nat)

/-- storage.go lines 371-382: the identity codec installed when no
encryption key is configured; it returns the payload unchanged and never
fails. -/
def cleartext : AEAD where
  encrypt := fun plain _ => .ok plain
  decrypt := fun cipher _ => .ok cipher

/-- An object stored in the bucket: its bytes and last-modified time. -/
structure Obj where
  data : List Nat
  modified : Nat
deriving DecidableEq

/-- The remote bucket, modelled as an association list from keys to
objects. All writes go through `Bucket.put`, which keeps keys unique. -/
abbrev Bucket := List (String × Obj)

/-- Look up the object stored at a key. -/
def Bucket.find (b : Bucket) (k : String) : Option Obj :=
  (List.find? (fun p => p.1 == k) b).map Prod.snd

/-- Remove every binding of a key. -/
def Bucket.del (b : Bucket) (k : String) : Bucket :=
  List.filter (fun p => !(p.1 == k)) b

/-- Unconditional overwrite of a key (OSS PutObject semantics). -/
def Bucket.put (b : Bucket) (k : String) (o : Obj) : Bucket :=
  (k, o) :: Bucket.del b k

/-- OSS GetObject against the bucket model: NoSuchKey when absent. -/
def getObject (b : Bucket) (k : String) : Except OSSErr (List Nat) :=
  match Bucket.find b k with
  | none => .error (.service "NoSuchKey")
  | some o => .ok o.data

/-- OSS HeadObject against the bucket model: NoSuchKey when absent,
otherwise the object's metadata (its ContentLength is the length of the
stored bytes). -/
def headObject (b : Bucket) (k : String) : Except OSSErr Obj :=
  match Bucket.find b k with
  | none => .error (.service "NoSuchKey")
  | some o => .ok o

/-- OSS DeleteObject against the bucket model, reporting the
distinguishable NotFound condition of the PrimitiveStore contract when the
key is absent. -/
def deleteObject (b : Bucket) (k : String) : Except OSSErr Bucket :=
  match Bucket.find b k with
  | none => .error (.service "NoSuchKey")
  | some _ => .ok (Bucket.del b k)

/-- OSS PutObject with the ForbidOverwrite header: atomically create the
object only if the key is currently absent; otherwise fail with the
already-exists service error (storage.go lines 271-276). -/
def condPutObject (b : Bucket) (k : String) (body : List Nat) (now : Nat) :
    Except OSSErr Bucket :=
  match Bucket.find b k with
  | some _ => .error (.service "FileAlreadyExists")
  | none => .ok (Bucket.put b k { data := body, modified := now })

/-- The result of OSS DeleteObject projected to success or failure only. -/
def deleteObjectR (b : Bucket) (k : String) : Except OSSErr Unit :=
  Except.map (fun _ => ()) (deleteObject b k)

/-- The errors the adapter returns to its caller, one constructor per
error-wrapping site in storage.go. `errNotExist` is Go's `fs.ErrNotExist`. -/
inductive StorErr where
  | errNotExist
  | encrypting (key : String) (msg : String)
  | decrypting (key : String) (msg : String)
  | writing (key : String) (e : OSSErr)
  | loading (key : String) (e : OSSErr)
  | deleting (key : String) (e : OSSErr)
  | statAttrs (key : String) (e : OSSErr)
  | listing (e : OSSErr)
  | creatingLock (lockKey : String) (e : OSSErr)
  | deletingLock (lockKey : String) (e : OSSErr)
  | ctxCanceled
deriving DecidableEq

/-- certmagic.KeyInfo as populated by Stat (storage.go lines 232-242). -/
structure KeyInfo where
  key : String
  modified : Nat
  size : Nat
  isTerminal : Bool
deriving DecidableEq

/-- The adapter. The OSS client and bucket name of the Go struct are
represented by the explicit `Bucket` state threaded through the
operations; the AEAD codec is the `aead` field, as in the Go struct. -/
structure Storage where
  aead : AEAD

/-- storage.go lines 20-24: the lease duration, 1 minute = 60 seconds. -/
def LockExpiration : Nat := 60

/-- storage.go lines 20-24: the poll interval, 1 second. -/
def LockPollInterval : Nat := 1

/-- storage.go lines 367-369. -/
def objLockName (key : String) : String := key ++ ".lock"

/-- storage.go lines 87-104 (Store): encrypt the value with the key name
as associated data, then PutObject unconditionally. An encryption failure
is wrapped and returned; in the bucket model the put itself succeeds. -/
def Storage.Store (s : Storage) (b : Bucket) (key : String) (value : List Nat)
    (now : Nat) : Except StorErr Bucket :=
  match s.aead.encrypt value key with
  | .error m => .error (.encrypting key m)
  | .ok enc => .ok (Bucket.put b key { data := enc, modified := now })

/-- storage.go lines 107-133 (Load): GetObject, mapping NoSuchKey to
fs.ErrNotExist and wrapping other errors, then decrypt the fetched bytes
with the same key name as associated data. -/
def Storage.Load (s : Storage) (b : Bucket) (key : String) :
    Except StorErr (List Nat) :=
  match getObject b key with
  | .error e =>
      if OSSErr.isNoSuchKey e then .error .errNotExist
      else .error (.loading key e)
  | .ok enc =>
      match s.aead.decrypt enc key with
      | .error m => .error (.decrypting key m)
      | .ok d => .ok d

/-- storage.go lines 138-154 (Delete), as a function of the DeleteObject
response: success is passed through, NoSuchKey is swallowed, every other
error is wrapped and returned. -/
def Storage.Delete (key : String) (resp : Except OSSErr Unit) :
    Except StorErr Unit :=
  match resp with
  | .ok _ => .ok ()
  | .error e =>
      if OSSErr.isNoSuchKey e then .ok ()
      else .error (.deleting key e)

/-- storage.go lines 215-243 (Stat): HeadObject, mapping NoSuchKey to
fs.ErrNotExist and wrapping other errors; on success the KeyInfo carries
the requested key, the object's last-modified time, its ContentLength
(the stored, i.e. encrypted, byte length) and IsTerminal = true. -/
def Storage.Stat (s : Storage) (b : Bucket) (key : String) :
    Except StorErr KeyInfo :=
  match headObject b key with
  | .error e =>
      if OSSErr.isNoSuchKey e then .error .errNotExist
      else .error (.statAttrs key e)
  | .ok o =>
      .ok { key := key, modified := o.modified, size := o.data.length
            , isTerminal := true }

/-- ListObjectsV2 Contents membership: a key is returned in a page's
Contents when it extends the request's Prefix and, if the request set the
"/" Delimiter, the remainder of the key after the prefix contains no
further "/" (keys with a deeper "/" are rolled up into CommonPrefixes,
which storage.go lines 199-209 never reads). -/
def keyInContents (pre : String) (delim : Bool) (k : String) : Bool :=
  List.isPrefixOf pre.data k.data &&
    (!delim || !(List.contains (List.drop pre.data.length k.data) '/'))

/-- The full (unpaginated) sequence of Contents keys the service would
return for a listing request, in the bucket's canonical order. -/
def ossListKeys (b : Bucket) (pre : String) (delim : Bool) : List String :=
  List.filter (keyInContents pre delim) (List.map Prod.fst b)

/-- Cut a key sequence into the pages the ListObjectsV2 paginator yields.
The page size is `n + 1`, so it is always positive, as the SDK's is. -/
def paginate (n : Nat) : List α → List (List α)
  | [] => []
  | x :: xs => List.take (n + 1) (x :: xs) :: paginate n (List.drop (n + 1) (x :: xs))
termination_by l => l.length
decreasing_by simp [List.length_drop]; omega

/-- storage.go lines 199-209: the Go loop over `p.HasNext()` /
`p.NextPage`, appending each page's Contents keys in order; a page error
aborts the listing with the wrapped error. -/
def collectPages : List (Except OSSErr (List String)) → Except StorErr (List String)
  | [] => .ok []
  | .error e :: _ => .error (.listing e)
  | .ok ks :: rest => Except.map (fun ns => ks ++ ns) (collectPages rest)

/-- storage.go lines 181-212 (Storage.List; named ListObjects here because
`List` would clash with the Lean list type): build a ListObjectsV2 request
with the given Prefix, set Delimiter "/" exactly when not recursive, then
drain the paginator, concatenating the Contents keys of every page. -/
def Storage.ListObjects (s : Storage) (b : Bucket) (pre : String)
    (recursive : Bool) (pageSz : Nat) : Except StorErr (List String) :=
  collectPages (List.map Except.ok (paginate pageSz (ossListKeys b pre (!recursive))))

/-- A Go context, reduced to the one observable the code consults:
whether its cancellation signal has fired. -/
structure Ctx where
  canceled : Bool
deriving DecidableEq

/-- `context.Background()`: never cancelled. -/
def contextBackground : Ctx := { canceled := false }

/-- OSS DeleteObject as invoked with an explicit context: with a
cancelled context the RPC fails with the transport error before reaching
the service; otherwise the bucket semantics of DeleteObject apply. -/
def deleteRPC (c : Ctx) (b : Bucket) (k : String) : Except OSSErr Bucket :=
  if c.canceled then .error (.transport "context canceled")
  else
    match Bucket.find b k with
    | none => .error (.service "NoSuchKey")
    | some _ => .ok (Bucket.del b k)

/-- storage.go lines 342-365 (Unlock): derive the lock key, then delete it
using a fresh `context.Background()` — NOT the caller's context `cctx`, so
the delete is attempted even if the caller's cancellation signal already
fired. NoSuchKey from the delete is swallowed; other errors are wrapped.
Returns the result together with the bucket after the call. -/
def Storage.Unlock (cctx : Ctx) (b : Bucket) (key : String) :
    Except StorErr Unit × Bucket :=
  let lockKey := objLockName key
  let deleteCtx := contextBackground
  match deleteRPC deleteCtx b lockKey with
  | .error e =>
      if OSSErr.isNoSuchKey e then (.ok (), b)
      else (.error (.deletingLock lockKey e), b)
  | .ok b2 => (.ok (), b2)

/-- storage.go lines 271-276: the conditional put the Lock loop performs,
in bucket semantics. The body written is the empty byte slice
`[]byte{}`, sent directly through `s.client` — the `s.aead` codec is not
consulted (cf. Store, lines 87-98, which encrypts first). -/
def Storage.lockTryCreate (s : Storage) (b : Bucket) (key : String) (now : Nat) :
    Except OSSErr Bucket :=
  condPutObject b (objLockName key) [] now

deriving instance DecidableEq for Except

/-- The responses and cancellation observations one iteration of the Lock
loop can consume: the conditional put's outcome (`none` = created), the
head probe's outcome (`.ok` carries the marker's LastModified, which the
SDK exposes as a nullable pointer), the wall-clock `now` at the staleness
check, the stale delete's outcome (`none` = deleted), and whether the
caller's context is found cancelled at each of the three select points. -/
structure LockIter where
  putResp : Option OSSErr
  headResp : Except OSSErr (Option Nat)
  now : Nat
  delResp : Option OSSErr
  cancelHeadErrWait : Bool
  cancelDelErrWait : Bool
  cancelHeldWait : Bool
deriving DecidableEq

/-- The observable actions of a Lock call. `waited` is one
`time.After(LockPollInterval)` sleep that ran to completion. -/
inductive LockEvent where
  | condPutAttempt
  | putSucceeded
  | headProbe
  | staleDelete
  | waited
  | canceled
deriving DecidableEq

/-- Outcome of one Lock-loop iteration: either the call returns, or the
loop continues with another conditional put. -/
inductive LoopStep where
  | done (r : Except StorErr Unit) (evs : List LockEvent)
  | again (evs : List LockEvent)
deriving DecidableEq

/-- storage.go line 303:
`result.LastModified != nil && result.LastModified.Add(LockExpiration).Before(time.Now())`. -/
def expiredAt : Option Nat → Nat → Bool
  | some m, now => decide (m + LockExpiration < now)
  | none, _ => false

/-- One iteration of the Lock loop, storage.go lines 268-335, transcribed
branch by branch:
  * put succeeded: return nil (lines 279-281);
  * put failed with an already-exists code: HeadObject the marker;
    - head failed (ANY error, NoSuchKey included): wait one poll interval
      or return ctx.Err() (lines 292-300);
    - marker expired: DeleteObject it; on success or NoSuchKey retry the
      put at once (lines 305-313); on any other delete error wait one poll
      interval or return ctx.Err() (lines 316-321);
    - marker not expired: wait one poll interval or return ctx.Err()
      (lines 325-330);
  * put failed with any other error: return the wrapped error at once
    (line 334). -/
def lockStep (lockKey : String) (env : LockIter) : LoopStep :=
  match env.putResp with
  | none => .done (.ok ()) [.condPutAttempt, .putSucceeded]
  | some e =>
    if OSSErr.isAlreadyExists e then
      match env.headResp with
      | .error _ =>
          if env.cancelHeadErrWait then
            .done (.error .ctxCanceled) [.condPutAttempt, .headProbe, .canceled]
          else .again [.condPutAttempt, .headProbe, .waited]
      | .ok lastMod =>
          if expiredAt lastMod env.now then
            match env.delResp with
            | none => .again [.condPutAttempt, .headProbe, .staleDelete]
            | some de =>
                if OSSErr.isNoSuchKey de then
                  .again [.condPutAttempt, .headProbe, .staleDelete]
                else if env.cancelDelErrWait then
                  .done (.error .ctxCanceled)
                    [.condPutAttempt, .headProbe, .staleDelete, .canceled]
                else .again [.condPutAttempt, .headProbe, .staleDelete, .waited]
          else
            if env.cancelHeldWait then
              .done (.error .ctxCanceled) [.condPutAttempt, .headProbe, .canceled]
            else .again [.condPutAttempt, .headProbe, .waited]
    else .done (.error (.creatingLock lockKey e)) [.condPutAttempt]

/-- The Lock loop run against a finite oracle of iteration environments.
The first component is `none` when the loop is still running after
consuming every environment; the second is the emitted event trace. -/
def lockLoop (lockKey : String) : List LockIter →
    Option (Except StorErr Unit) × List LockEvent
  | [] => (none, [])
  | env :: rest =>
    match lockStep lockKey env with
    | .done r evs => (some r, evs)
    | .again evs => ((lockLoop lockKey rest).1, evs ++ (lockLoop lockKey rest).2)

/-- storage.go lines 265-336 (Lock): derive the lock key, then loop. -/
def Storage.Lock (key : String) (envs : List LockIter) :
    Option (Except StorErr Unit) × List LockEvent :=
  lockLoop (objLockName key) envs

/-- The atomic operations the lock protocol performs on one lock marker,
tagged with the acting process `p` and the wall-clock second `t` at which
the operation lands at the service. A concurrent execution of several
Lock/Unlock calls is an interleaving: a single list of these events. -/
inductive MEv where
  | condCreate (p t : Nat)
  | headObs (p t : Nat)
  | unlockDel (p t : Nat)
  | staleDel (p t : Nat)
deriving DecidableEq

/-- The wall-clock time at which an event lands. -/
def MEv.time : MEv → Nat
  | .condCreate _ t => t
  | .headObs _ t => t
  | .unlockDel _ t => t
  | .staleDel _ t => t

def MEv.isCreate : MEv → Bool
  | .condCreate _ _ => true
  | _ => false

def MEv.isUnlockDel : MEv → Bool
  | .unlockDel _ _ => true
  | _ => false

/-- The marker state (its LastModified time, or absent) after one atomic
event. A conditional create succeeds — installs the marker — exactly when
no marker is present (the ForbidOverwrite guarantee); a head probe leaves
the state unchanged; both delete forms remove whatever marker is there,
because storage.go's DeleteObject calls carry no precondition. -/
def mstep (s : Option Nat) : MEv → Option Nat
  | .condCreate _ t => match s with | none => some t | some m => some m
  | .headObs _ _ => s
  | .unlockDel _ _ => none
  | .staleDel _ _ => none

/-- The marker state after a whole trace. -/
def mrun (s : Option Nat) (l : List MEv) : Option Nat := List.foldl mstep s l

/-- Protocol well-formedness of a trace, checked by walking it with the
current marker state `s` and the accumulated head observations `obs`
(pairs of observation time and observed LastModified). A head probe on a
present marker records what it saw; a stale delete is performed by the
code only after some head observation returned a LastModified `m` with
`m + LockExpiration < now` at the staleness check, and the check runs
before the delete, so the delete's own time bounds `now` from above
(storage.go lines 287-313). -/
def wfB (s : Option Nat) (obs : List (Nat × Nat)) : List MEv → Bool
  | [] => true
  | .condCreate p t :: rest => wfB (mstep s (.condCreate p t)) obs rest
  | .headObs _ t :: rest =>
      wfB s (match s with | some m => (t, m) :: obs | none => obs) rest
  | .unlockDel _ _ :: rest => wfB none obs rest
  | .staleDel _ t :: rest =>
      (List.any obs fun pr => decide (pr.2 + LockExpiration < t)) && wfB none obs rest

/-- An AEAD whose operations always fail; used to exhibit that the lock
marker bypasses the codec entirely. -/
def aeadBoom : AEAD where
  encrypt := fun _ _ => .error "refused"
  decrypt := fun _ _ => .error "refused"

/-- Lock-loop iteration: conditional put contended, head probe then fails
with NoSuchKey (the marker vanished between the put and the probe), no
cancellation. -/
def envHeadNotFound : LockIter where
  putResp := some (.service "FileAlreadyExists")
  headResp := .error (.service "NoSuchKey")
  now := 0
  delResp := none
  cancelHeadErrWait := false
  cancelDelErrWait := false
  cancelHeldWait := false

/-- Lock-loop iteration: conditional put contended, head probe fails with
a transport error, no cancellation. -/
def envHeadTransport : LockIter :=
  { envHeadNotFound with headResp := .error (.transport "timeout") }

/-- Lock-loop iteration: contended put, head sees a marker from second 0
at second 100 (stale), and the stale-marker delete fails with a transport
error; no cancellation. -/
def envDelTransport : LockIter where
  putResp := some (.service "FileAlreadyExists")
  headResp := .ok (some 0)
  now := 100
  delResp := some (.transport "timeout")
  cancelHeadErrWait := false
  cancelDelErrWait := false
  cancelHeldWait := false

/-- Lock-loop iteration: the conditional put is refused outright
(permission denied), which is neither success nor contention. -/
def envPutDenied : LockIter :=
  { envHeadNotFound with putResp := some (.service "AccessDenied") }

/-- Lock-loop iteration: contended put, unexpired marker (age 30 s of a
60 s lease), and the caller's context is already cancelled at the wait. -/
def envHeldCancel : LockIter where
  putResp := some (.service "FileAlreadyExists")
  headResp := .ok (some 0)
  now := 30
  delResp := none
  cancelHeadErrWait := false
  cancelDelErrWait := false
  cancelHeldWait := true

/-- The bucket of the spec's example scenario, after
`Store("certs/example.com/cert.pem", "PEM"-bytes)` with the cleartext
codec at second 0. -/
def exBucket : Bucket :=
  Bucket.put [] "certs/example.com/cert.pem" { data := [80, 69, 77], modified := 0 }

/-- A freshly put object is found under its key. -/
theorem find_put_self (b : Bucket) (k : String) (o : Obj) :
    Bucket.find (Bucket.put b k o) k = some o := by
  simp [Bucket.find, Bucket.put, List.find?]

/-- After deleting a key, it is no longer found. -/
theorem find_del_self (b : Bucket) (k : String) :
    Bucket.find (Bucket.del b k) k = none := by
  induction b with
  | nil => rfl
  | cons p rest ih =>
      by_cases h : p.1 = k <;>
        simp [Bucket.del, Bucket.find, List.filter_cons, h, List.find?] at ih ⊢

/-- Draining the paginator recovers the unpaginated key sequence. -/
theorem paginate_join (n : Nat) (l : List α) : (paginate n l).flatten = l := by
  match l with
  | [] => simp [paginate]
  | x :: xs =>
      rw [paginate, List.flatten_cons, paginate_join n (List.drop (n + 1) (x :: xs))]
      exact List.take_append_drop (n + 1) (x :: xs)
termination_by l.length
decreasing_by simp [List.length_drop]; omega

/-- Error-free pages are concatenated in order. -/
theorem collectPages_ok (pages : List (List String)) :
    collectPages (List.map Except.ok pages) = .ok pages.flatten := by
  induction pages with
  | nil => simp [collectPages]
  | cons p ps ih => simp [collectPages, ih, Except.map]

/-- A trace without creates leaves an absent marker absent. -/
theorem mrun_none_of_noCreate (l : List MEv) (h : ∀ e ∈ l, MEv.isCreate e = false) :
    mrun none l = none := by
  induction l with
  | nil => rfl
  | cons e rest ih =>
      cases e with
      | condCreate p t => simpa [MEv.isCreate] using h _ (List.mem_cons_self _ _)
      | headObs p t =>
          simpa [mrun, mstep] using ih fun x hx => h x (List.mem_cons_of_mem _ hx)
      | unlockDel p t =>
          simpa [mrun, mstep] using ih fun x hx => h x (List.mem_cons_of_mem _ hx)
      | staleDel p t =>
          simpa [mrun, mstep] using ih fun x hx => h x (List.mem_cons_of_mem _ hx)

/-- Well-formedness passes over a create-free segment started from the
empty state without recording any observation. -/
theorem wfB_drop_noCreate (l r : List MEv) (h : ∀ e ∈ l, MEv.isCreate e = false)
    (hwf : wfB none [] (l ++ r) = true) : wfB none [] r = true := by
  induction l with
  | nil => simpa using hwf
  | cons e rest ih =>
      cases e with
      | condCreate p t => simpa [MEv.isCreate] using h _ (List.mem_cons_self _ _)
      | headObs p t =>
          exact ih (fun x hx => h x (List.mem_cons_of_mem _ hx))
            (by simpa [wfB, mstep] using hwf)
      | unlockDel p t =>
          exact ih (fun x hx => h x (List.mem_cons_of_mem _ hx))
            (by simpa [wfB] using hwf)
      | staleDel p t => simp [wfB] at hwf

/-- Key lemma for mutual exclusion: starting from a marker installed at
time `t1`, if a well-formed continuation deletes nothing via Unlock yet
ends with the marker gone, then some stale delete occurred in it, and
that delete is justified only by an observation of THIS marker, so its
time is past the lease: `t1 + LockExpiration < t`. -/
theorem stale_reclaim_bound (t1 : Nat) (l2 : List MEv) :
    ∀ (r : List MEv) (obs : List (Nat × Nat)),
      (∀ pr ∈ obs, pr.2 = t1) →
      wfB (some t1) obs (l2 ++ r) = true →
      (∀ e ∈ l2, MEv.isUnlockDel e = false) →
      mrun (some t1) l2 = none →
      ∃ q t, MEv.staleDel q t ∈ l2 ∧ t1 + LockExpiration < t := by
  induction l2 with
  | nil => intro r obs _ _ _ hrun; simp [mrun] at hrun
  | cons e rest ih =>
      intro r obs hobs hwf hnu hrun
      cases e with
      | condCreate p t =>
          obtain ⟨q, t2, hm, hb⟩ := ih r obs hobs
            (by simpa [wfB, mstep] using hwf)
            (fun x hx => hnu x (List.mem_cons_of_mem _ hx))
            (by simpa [mrun, mstep] using hrun)
          exact ⟨q, t2, List.mem_cons_of_mem _ hm, hb⟩
      | headObs p t =>
          obtain ⟨q, t2, hm, hb⟩ := ih r ((t, t1) :: obs)
            (by intro pr hpr
                rcases List.mem_cons.mp hpr with rfl | hpr2
                · rfl
                · exact hobs _ hpr2)
            (by simpa [wfB] using hwf)
            (fun x hx => hnu x (List.mem_cons_of_mem _ hx))
            (by simpa [mrun, mstep] using hrun)
          exact ⟨q, t2, List.mem_cons_of_mem _ hm, hb⟩
      | unlockDel p t =>
          simpa [MEv.isUnlockDel] using hnu _ (List.mem_cons_self _ _)
      | staleDel p t =>
          have hj : (List.any obs fun pr => decide (pr.2 + LockExpiration < t)) = true := by
            simp only [wfB, List.cons_append, Bool.and_eq_true] at hwf
            exact hwf.1
          obtain ⟨pr, hpr, hlt⟩ := List.any_eq_true.mp hj
          refine ⟨p, t, List.mem_cons_self _ _, ?_⟩
          have h2 := hobs pr hpr
          rw [← h2]
          exact of_decide_eq_true hlt

/-- Inversion: the loop body returns success only from the branch in
which the conditional put itself succeeded. -/
theorem lockStep_done_ok (k : String) (env : LockIter) (evs : List LockEvent)
    (h : lockStep k env = .done (.ok ()) evs) :
    env.putResp = none ∧ evs = [.condPutAttempt, .putSucceeded] := by
  unfold lockStep at h
  repeat' split at h
  all_goals simp_all

/-- Inversion: a cancellation return carries no completed poll sleep and
no successful put in its events. -/
theorem lockStep_canceled_no_put (k : String) (env : LockIter) (evs : List LockEvent)
    (h : lockStep k env = .done (.error .ctxCanceled) evs) :
    LockEvent.putSucceeded ∉ evs ∧ LockEvent.waited ∉ evs := by
  unfold lockStep at h
  repeat' split at h
  all_goals simp_all
  all_goals (rw [← h]; decide)

/-- Inversion: an iteration that continues the loop never emitted a
successful put. -/
theorem lockStep_again_no_put (k : String) (env : LockIter) (evs : List LockEvent)
    (h : lockStep k env = .again evs) : LockEvent.putSucceeded ∉ evs := by
  unfold lockStep at h
  repeat' split at h
  all_goals simp_all
  all_goals (rw [← h]; decide)

/-- A Lock call returns success only because one of its conditional puts
succeeded: there is no other path to acquisition. -/
theorem lockLoop_ok_put (k : String) (envs : List LockIter) :
    ∀ evs, lockLoop k envs = (some (.ok ()), evs) →
      ∃ env ∈ envs, env.putResp = none := by
  induction envs with
  | nil => intro evs h; simp [lockLoop] at h
  | cons env rest ih =>
      intro evs h
      cases hs : lockStep k env with
      | done r evs0 =>
          simp only [lockLoop, hs] at h
          rw [Prod.mk.injEq] at h
          obtain ⟨h1, _⟩ := h
          have hr : r = Except.ok () := by simpa using h1
          exact ⟨env, List.mem_cons_self _ _,
            (lockStep_done_ok k env evs0 (by rw [hs, hr])).1⟩
      | again evs0 =>
          simp only [lockLoop, hs] at h
          rw [Prod.mk.injEq] at h
          obtain ⟨h1, _⟩ := h
          have hrest : lockLoop k rest = (some (.ok ()), (lockLoop k rest).2) := by
            have he : lockLoop k rest = ((lockLoop k rest).1, (lockLoop k rest).2) := rfl
            rw [he, h1]
          obtain ⟨env2, hm, hp⟩ := ih _ hrest
          exact ⟨env2, List.mem_cons_of_mem _ hm, hp⟩

/-- A Lock call that returns the cancellation error never got a
successful conditional put: the cancelled attempt installed no marker. -/
theorem lockLoop_canceled_no_put (k : String) (envs : List LockIter) :
    ∀ evs, lockLoop k envs = (some (.error .ctxCanceled), evs) →
      LockEvent.putSucceeded ∉ evs := by
  induction envs with
  | nil => intro evs h; simp [lockLoop] at h
  | cons env rest ih =>
      intro evs h
      cases hs : lockStep k env with
      | done r evs0 =>
          simp only [lockLoop, hs] at h
          rw [Prod.mk.injEq] at h
          obtain ⟨h1, h2⟩ := h
          have hr : r = Except.error StorErr.ctxCanceled := by simpa using h1
          rw [← h2]
          exact (lockStep_canceled_no_put k env evs0 (by rw [hs, hr])).1
      | again evs0 =>
          simp only [lockLoop, hs] at h
          rw [Prod.mk.injEq] at h
          obtain ⟨h1, h2⟩ := h
          have hrest : lockLoop k rest = (some (.error .ctxCanceled), (lockLoop k rest).2) := by
            have he : lockLoop k rest = ((lockLoop k rest).1, (lockLoop k rest).2) := rfl
            rw [he, h1]
          rw [← h2]
          intro hmem
          rcases List.mem_append.mp hmem with hm | hm
          · exact lockStep_again_no_put k env evs0 hs hm
          · exact ih _ hrest hm

/-- Claim C2: for every key `k` and byte value `v`, `Store(k, v)` followed
by `Load(k)` returns exactly `v`, for any codec whose decrypt inverts its
encrypt under equal associated data (so both for a real AEAD and for the
identity cleartext codec): Store encrypts with `k` as associated data and
Load decrypts the fetched ciphertext with the same `k` as associated
data. -/
theorem claim2_store_load_roundtrip (a : AEAD) (b : Bucket) (k : String)
    (v c : List Nat) (now : Nat)
    (hrt : ∀ (p : List Nat) (ad : String) (c2 : List Nat),
      a.encrypt p ad = .ok c2 → a.decrypt c2 ad = .ok p)
    (henc : a.encrypt v k = .ok c) :
    Storage.Store ⟨a⟩ b k v now = .ok (Bucket.put b k { data := c, modified := now }) ∧
    Storage.Load ⟨a⟩ (Bucket.put b k { data := c, modified := now }) k = .ok v := by
  constructor
  · simp [Storage.Store, henc]
  · have hd := hrt v k c henc
    simp [Storage.Load, getObject, find_put_self, hd]

/-- Witness for C2 at the cleartext codec and a concrete key/value. -/
theorem claim2_witness :
    Storage.Store ⟨cleartext⟩ [] "a" [1, 2] 0 =
      .ok (Bucket.put [] "a" { data := [1, 2], modified := 0 }) ∧
    Storage.Load ⟨cleartext⟩ (Bucket.put [] "a" { data := [1, 2], modified := 0 }) "a" =
      .ok [1, 2] :=
  claim2_store_load_roundtrip cleartext [] "a" [1, 2] [1, 2] 0
    (by intro p ad c2 h
        simp [cleartext] at h ⊢
        exact h.symm)
    rfl

/-- Claim C3: Delete maps a successful underlying delete to success, maps
an underlying NotFound to success (idempotent delete — in particular
deleting a key that was never stored succeeds), and returns every other
underlying error to the caller. -/
theorem claim3_delete_idempotent :
    (∀ k : String, Storage.Delete k (.ok ()) = .ok ()) ∧
    (∀ (k : String) (e : OSSErr), OSSErr.isNoSuchKey e = true →
      Storage.Delete k (.error e) = .ok ()) ∧
    (∀ (k : String) (e : OSSErr), OSSErr.isNoSuchKey e = false →
      Storage.Delete k (.error e) = .error (.deleting k e)) ∧
    (∀ (b : Bucket) (k : String), Bucket.find b k = none →
      Storage.Delete k (deleteObjectR b k) = .ok ()) := by
  refine ⟨fun k => rfl, fun k e he => ?_, fun k e he => ?_, fun b k hf => ?_⟩
  · simp [Storage.Delete, he]
  · simp [Storage.Delete, he]
  · simp [Storage.Delete, deleteObjectR, deleteObject, hf, Except.map, OSSErr.isNoSuchKey]

/-- Witness for C3: deleting the never-stored key "x" of the empty bucket
succeeds, as does a delete whose underlying response is NoSuchKey; a
transport error is returned wrapped. -/
theorem claim3_witness :
    Storage.Delete "x" (.error (.service "NoSuchKey")) = .ok () ∧
    Storage.Delete "x" (deleteObjectR [] "x") = .ok () ∧
    Storage.Delete "x" (.error (.transport "timeout")) =
      .error (.deleting "x" (.transport "timeout")) :=
  ⟨claim3_delete_idempotent.2.1 "x" _ rfl,
   claim3_delete_idempotent.2.2.2 [] "x" rfl,
   claim3_delete_idempotent.2.2.1 "x" _ rfl⟩

/-- Claim C6: Unlock's behaviour is independent of the caller's context
(it deletes through a fresh background context, so the delete is
attempted even after the caller's cancellation fired), it always returns
success in the bucket model (in particular when the underlying delete
reports NotFound because the marker is already gone), and afterwards the
marker at `key + ".lock"` is absent. -/
theorem claim6_unlock_idempotent_uncancellable (cctx : Ctx) (b : Bucket) (key : String) :
    Storage.Unlock cctx b key = Storage.Unlock contextBackground b key ∧
    (Storage.Unlock cctx b key).1 = .ok () ∧
    Bucket.find (Storage.Unlock cctx b key).2 (objLockName key) = none := by
  refine ⟨rfl, ?_, ?_⟩ <;>
    cases hf : Bucket.find b (objLockName key) <;>
      simp [Storage.Unlock, deleteRPC, contextBackground, hf, OSSErr.isNoSuchKey,
        find_del_self]

/-- Claim C8: Stat on a missing key returns the NotFound error; on a key
just stored, it returns a KeyInfo whose Key is the requested key, whose
size is the stored ciphertext length, and whose isTerminal is true. -/
theorem claim8_stat (s : Storage) (b : Bucket) (k : String) (v c : List Nat) (now : Nat) :
    (Bucket.find b k = none → Storage.Stat s b k = .error .errNotExist) ∧
    (s.aead.encrypt v k = .ok c →
      Storage.Store s b k v now = .ok (Bucket.put b k { data := c, modified := now }) ∧
      Storage.Stat s (Bucket.put b k { data := c, modified := now }) k =
        .ok { key := k, modified := now, size := c.length, isTerminal := true }) := by
  constructor
  · intro hf
    simp [Storage.Stat, headObject, hf, OSSErr.isNoSuchKey]
  · intro henc
    constructor
    · simp [Storage.Store, henc]
    · simp [Storage.Stat, headObject, find_put_self]

/-- Witness for C8 at the cleartext codec and a concrete key/value. -/
theorem claim8_witness :
    Storage.Stat ⟨cleartext⟩ [] "k" = .error .errNotExist ∧
    Storage.Stat ⟨cleartext⟩ (Bucket.put [] "k" { data := [7, 8, 9], modified := 5 }) "k" =
      .ok { key := "k", modified := 5, size := 3, isTerminal := true } :=
  ⟨(claim8_stat ⟨cleartext⟩ [] "k" [7, 8, 9] [7, 8, 9] 5).1 rfl,
   ((claim8_stat ⟨cleartext⟩ [] "k" [7, 8, 9] [7, 8, 9] 5).2 rfl).2⟩

/-- Claim C10: the lock marker is written outside the encryption path:
the conditional put of the Lock loop behaves identically whatever AEAD
the Storage is configured with, and on success the object stored at
`key + ".lock"` holds the empty byte string. -/
theorem claim10_lock_marker_unencrypted (s1 s2 : Storage) (b : Bucket)
    (key : String) (now : Nat) :
    Storage.lockTryCreate s1 b key now = Storage.lockTryCreate s2 b key now ∧
    (Bucket.find b (objLockName key) = none →
      Storage.lockTryCreate s1 b key now =
        .ok (Bucket.put b (objLockName key) { data := [], modified := now }) ∧
      Bucket.find (Bucket.put b (objLockName key) { data := [], modified := now })
          (objLockName key) = some { data := [], modified := now }) := by
  refine ⟨rfl, fun hf => ⟨?_, find_put_self _ _ _⟩⟩
  simp [Storage.lockTryCreate, condPutObject, hf]

/-- Witness for C10: even with a codec that refuses to encrypt anything,
the marker for key "r" is created with empty content. -/
theorem claim10_witness :
    Storage.lockTryCreate ⟨aeadBoom⟩ [] "r" 3 =
      .ok (Bucket.put [] (objLockName "r") { data := [], modified := 3 }) ∧
    Bucket.find (Bucket.put [] (objLockName "r") { data := [], modified := 3 })
        (objLockName "r") = some { data := [], modified := 3 } :=
  (claim10_lock_marker_unencrypted ⟨aeadBoom⟩ ⟨cleartext⟩ [] "r" 3).2 rfl

/-- Counterexample to C7's example: after storing
"certs/example.com/cert.pem", a non-recursive List with the literal
prefix "certs/example.com" (no trailing slash) returns the empty list,
not ["certs/example.com/cert.pem"]: the "/" delimiter rolls the key into
a CommonPrefix, and the code reads only each page's Contents. -/
theorem claim7_cex :
    Storage.Store ⟨cleartext⟩ [] "certs/example.com/cert.pem" [80, 69, 77] 0 =
      .ok exBucket ∧
    Storage.ListObjects ⟨cleartext⟩ exBucket "certs/example.com" false 100 = .ok [] ∧
    Storage.ListObjects ⟨cleartext⟩ exBucket "certs/example.com" false 100 ≠
      .ok ["certs/example.com/cert.pem"] := by
  refine ⟨rfl, ?_, ?_⟩ <;>
    rw [Storage.ListObjects, collectPages_ok, paginate_join] <;> decide

/-- Amended C7: List drains the paginator and returns, in order, exactly
the keys extending the prefix — all of them when recursive, and only
those whose remainder after the literal prefix contains no further "/"
when not recursive (deeper keys are delimiter-grouped and omitted). The
example's key is returned for the trailing-slash prefix
"certs/example.com/"; for "certs/example.com" the listing is empty. -/
theorem claim7_list_pages_delimiter (s : Storage) (b : Bucket) (pre : String)
    (recursive : Bool) (pageSz : Nat) :
    Storage.ListObjects s b pre recursive pageSz =
      .ok (List.filter
        (fun k => List.isPrefixOf pre.data k.data &&
          (recursive || !(List.contains (List.drop pre.data.length k.data) '/')))
        (List.map Prod.fst b)) ∧
    Storage.ListObjects s exBucket "certs/example.com/" false pageSz =
      .ok ["certs/example.com/cert.pem"] := by
  have hchar : ∀ (pre2 : String) (rec2 : Bool),
      keyInContents pre2 (!rec2) = fun k =>
        List.isPrefixOf pre2.data k.data &&
          (rec2 || !(List.contains (List.drop pre2.data.length k.data) '/')) := by
    intro pre2 rec2
    funext k
    cases rec2 <;> simp [keyInContents]
  constructor
  · rw [Storage.ListObjects, collectPages_ok, paginate_join, ossListKeys, hchar]
  · rw [Storage.ListObjects, collectPages_ok, paginate_join]
    rfl

/-- Counterexample to C4: with the conditional put contended and the head
probe failing with NoSuchKey, the code does NOT retry immediately — a
full PollInterval sleep occurs before the loop continues. -/
theorem claim4_cex :
    LockEvent.waited ∈ (Storage.Lock "res" [envHeadNotFound]).2 ∧
    (Storage.Lock "res" [envHeadNotFound]).1 = none := by
  decide

/-- Amended C4: when the conditional put fails with an already-exists
error and the head probe fails (NoSuchKey included), Lock waits one
PollInterval and then retries the conditional put, or returns the
cancellation error if the caller's context fires during the wait. -/
theorem claim4_head_error_waits (k : String) (env : LockIter) (rest : List LockIter)
    (e1 e2 : OSSErr)
    (hput : env.putResp = some e1) (hae : OSSErr.isAlreadyExists e1 = true)
    (hhead : env.headResp = .error e2) :
    (env.cancelHeadErrWait = true →
      lockLoop k (env :: rest) =
        (some (.error .ctxCanceled), [.condPutAttempt, .headProbe, .canceled])) ∧
    (env.cancelHeadErrWait = false →
      lockLoop k (env :: rest) =
        ((lockLoop k rest).1,
          [.condPutAttempt, .headProbe, .waited] ++ (lockLoop k rest).2)) := by
  constructor <;> intro hc <;> simp [lockLoop, lockStep, hput, hae, hhead, hc]

/-- Witness for the amended C4 at a concrete environment. -/
theorem claim4_witness :
    lockLoop "res.lock" [envHeadNotFound] =
      ((lockLoop "res.lock" ([] : List LockIter)).1,
        [.condPutAttempt, .headProbe, .waited] ++
          (lockLoop "res.lock" ([] : List LockIter)).2) :=
  (claim4_head_error_waits "res.lock" envHeadNotFound []
    (.service "FileAlreadyExists") (.service "NoSuchKey") rfl rfl rfl).2 rfl

/-- Counterexample to C5: a transport error from the head probe, and a
transport error from the stale-marker delete, are both retried after a
poll sleep — the Lock call does not abort as fatal in either case. -/
theorem claim5_cex :
    (Storage.Lock "res" [envHeadTransport]).1 = none ∧
    (Storage.Lock "res" [envDelTransport]).1 = none := by
  decide

/-- Amended C5: a conditional-put error that is not already-exists aborts
the call immediately as fatal; every probe error (NoSuchKey included)
leads to a PollInterval wait and retry; NoSuchKey from the stale-marker
delete retries immediately; any other delete error also leads to a
PollInterval wait and retry — neither probing nor cleanup errors are ever
propagated to the caller. -/
theorem claim5_error_policy (k : String) (env : LockIter) (rest : List LockIter)
    (e : OSSErr) :
    (env.putResp = some e → OSSErr.isAlreadyExists e = false →
      lockLoop k (env :: rest) =
        (some (.error (.creatingLock k e)), [.condPutAttempt])) ∧
    (∀ e2, env.putResp = some e → OSSErr.isAlreadyExists e = true →
      env.headResp = .error e2 → env.cancelHeadErrWait = false →
      lockLoop k (env :: rest) =
        ((lockLoop k rest).1,
          [.condPutAttempt, .headProbe, .waited] ++ (lockLoop k rest).2)) ∧
    (∀ lm de, env.putResp = some e → OSSErr.isAlreadyExists e = true →
      env.headResp = .ok lm → expiredAt lm env.now = true →
      env.delResp = some de → OSSErr.isNoSuchKey de = true →
      lockLoop k (env :: rest) =
        ((lockLoop k rest).1,
          [.condPutAttempt, .headProbe, .staleDelete] ++ (lockLoop k rest).2)) ∧
    (∀ lm de, env.putResp = some e → OSSErr.isAlreadyExists e = true →
      env.headResp = .ok lm → expiredAt lm env.now = true →
      env.delResp = some de → OSSErr.isNoSuchKey de = false →
      env.cancelDelErrWait = false →
      lockLoop k (env :: rest) =
        ((lockLoop k rest).1,
          [.condPutAttempt, .headProbe, .staleDelete, .waited] ++
            (lockLoop k rest).2)) := by
  refine ⟨fun h1 h2 => ?_, fun e2 h1 h2 h3 h4 => ?_,
    fun lm de h1 h2 h3 h4 h5 h6 => ?_, fun lm de h1 h2 h3 h4 h5 h6 h7 => ?_⟩ <;>
    simp [lockLoop, lockStep, *]

/-- Witness for the amended C5 at concrete environments. -/
theorem claim5_witness :
    lockLoop "res.lock" [envPutDenied] =
      (some (.error (.creatingLock "res.lock" (.service "AccessDenied"))),
        [.condPutAttempt]) ∧
    lockLoop "res.lock" [envDelTransport] =
      ((lockLoop "res.lock" ([] : List LockIter)).1,
        [.condPutAttempt, .headProbe, .staleDelete, .waited] ++
          (lockLoop "res.lock" ([] : List LockIter)).2) :=
  ⟨(claim5_error_policy "res.lock" envPutDenied [] (.service "AccessDenied")).1 rfl rfl,
   (claim5_error_policy "res.lock" envDelTransport []
      (.service "FileAlreadyExists")).2.2.2 (some 0) (.transport "timeout")
      rfl rfl rfl rfl rfl rfl rfl⟩

/-- Claim C9: at each of the three wait points of the Lock loop, a
cancelled context makes the call return the cancellation error at once —
no further PollInterval sleep completes — and a Lock call that returns
the cancellation error never had a successful conditional put, so it
leaves no marker behind attributable to it. -/
theorem claim9_cancellation (k : String) (env : LockIter) (rest : List LockIter)
    (e : OSSErr) :
    (∀ e2, env.putResp = some e → OSSErr.isAlreadyExists e = true →
      env.headResp = .error e2 → env.cancelHeadErrWait = true →
      lockLoop k (env :: rest) =
        (some (.error .ctxCanceled), [.condPutAttempt, .headProbe, .canceled])) ∧
    (∀ lm de, env.putResp = some e → OSSErr.isAlreadyExists e = true →
      env.headResp = .ok lm → expiredAt lm env.now = true →
      env.delResp = some de → OSSErr.isNoSuchKey de = false →
      env.cancelDelErrWait = true →
      lockLoop k (env :: rest) =
        (some (.error .ctxCanceled),
          [.condPutAttempt, .headProbe, .staleDelete, .canceled])) ∧
    (∀ lm, env.putResp = some e → OSSErr.isAlreadyExists e = true →
      env.headResp = .ok lm → expiredAt lm env.now = false →
      env.cancelHeldWait = true →
      lockLoop k (env :: rest) =
        (some (.error .ctxCanceled), [.condPutAttempt, .headProbe, .canceled])) ∧
    (∀ (envs : List LockIter) (evs : List LockEvent),
      lockLoop k envs = (some (.error .ctxCanceled), evs) →
      LockEvent.putSucceeded ∉ evs) := by
  refine ⟨fun e2 h1 h2 h3 h4 => ?_, fun lm de h1 h2 h3 h4 h5 h6 h7 => ?_,
    fun lm h1 h2 h3 h4 h5 => ?_, fun envs evs h => lockLoop_canceled_no_put k envs evs h⟩ <;>
    simp [lockLoop, lockStep, *]

/-- Witness for C9: a waiter on an unexpired marker with a cancelled
context returns the cancellation error with no completed sleep and no
successful put in its trace. -/
theorem claim9_witness :
    lockLoop "res.lock" [envHeldCancel] =
      (some (.error .ctxCanceled), [.condPutAttempt, .headProbe, .canceled]) ∧
    LockEvent.putSucceeded ∉
      [LockEvent.condPutAttempt, LockEvent.headProbe, LockEvent.canceled] ∧
    LockEvent.waited ∉
      [LockEvent.condPutAttempt, LockEvent.headProbe, LockEvent.canceled] :=
  ⟨(claim9_cancellation "res.lock" envHeldCancel []
      (.service "FileAlreadyExists")).2.2.1 (some 0) rfl rfl rfl rfl rfl,
   by decide, by decide⟩

/-- Claim C1: mutual exclusion of the distributed lock. In any
interleaved, well-formed trace of atomic marker operations whose first
conditional create lands at time `t1` and whose next successful
conditional create (by the other caller) lands at time `t2`, either an
Unlock delete occurred in between, or the first holder's lease had
expired: `t1 + LockExpiration < t2`. Moreover (a) a conditional create
against a present marker fails and leaves it unchanged while the first
create against an absent marker succeeds — exclusion comes from the
atomic conditional-create alone — and (b) a Lock call returns success
only because one of its own conditional puts succeeded: there is no
check-then-act path to acquisition. -/
theorem claim1_mutual_exclusion (l1 l2 l3 : List MEv) (p1 p2 t1 t2 : Nat)
    (hnc : ∀ e ∈ l1, MEv.isCreate e = false)
    (hwf : wfB none []
      (l1 ++ MEv.condCreate p1 t1 :: (l2 ++ MEv.condCreate p2 t2 :: l3)) = true)
    (hmono : List.Pairwise (fun a b => MEv.time a ≤ MEv.time b)
      (l1 ++ MEv.condCreate p1 t1 :: (l2 ++ MEv.condCreate p2 t2 :: l3)))
    (hsecond : mrun none (l1 ++ MEv.condCreate p1 t1 :: l2) = none) :
    ((∃ q td, MEv.unlockDel q td ∈ l2) ∨ t1 + LockExpiration < t2) ∧
    (∀ (m q t : Nat), mstep (some m) (.condCreate q t) = some m) ∧
    (∀ (q t : Nat), mstep none (.condCreate q t) = some t) ∧
    (∀ (k : String) (envs : List LockIter) (evs : List LockEvent),
      lockLoop k envs = (some (.ok ()), evs) → ∃ env ∈ envs, env.putResp = none) := by
  refine ⟨?_, fun m q t => rfl, fun q t => rfl,
    fun k envs evs h => lockLoop_ok_put k envs evs h⟩
  by_cases hu : ∃ q td, MEv.unlockDel q td ∈ l2
  · exact Or.inl hu
  · right
    have hnu : ∀ e ∈ l2, MEv.isUnlockDel e = false := by
      intro e he
      cases e with
      | unlockDel q td => exact absurd ⟨q, td, he⟩ hu
      | condCreate q td => rfl
      | headObs q td => rfl
      | staleDel q td => rfl
    have hl1 : mrun none l1 = none := mrun_none_of_noCreate l1 hnc
    have hrun : mrun (some t1) l2 = none := by
      have h0 : mrun none (l1 ++ MEv.condCreate p1 t1 :: l2)
          = mrun (mstep (mrun none l1) (MEv.condCreate p1 t1)) l2 := by
        simp [mrun, List.foldl_append]
      rw [h0, hl1] at hsecond
      simpa [mstep] using hsecond
    have hwf2 : wfB (some t1) [] (l2 ++ MEv.condCreate p2 t2 :: l3) = true := by
      have hstep := wfB_drop_noCreate l1
        (MEv.condCreate p1 t1 :: (l2 ++ MEv.condCreate p2 t2 :: l3)) hnc hwf
      simpa [wfB, mstep] using hstep
    obtain ⟨q, t, hmem, hb⟩ := stale_reclaim_bound t1 l2 (MEv.condCreate p2 t2 :: l3) []
      (by intro pr hpr; exact absurd hpr (List.not_mem_nil pr)) hwf2 hnu hrun
    have hle : t ≤ t2 := by
      have hshape : l1 ++ MEv.condCreate p1 t1 :: (l2 ++ MEv.condCreate p2 t2 :: l3)
          = (l1 ++ MEv.condCreate p1 t1 :: l2) ++ (MEv.condCreate p2 t2 :: l3) := by
        simp
      rw [hshape] at hmono
      have hcross := (List.pairwise_append.mp hmono).2.2
      have := hcross (MEv.staleDel q t)
        (List.mem_append_right l1 (List.mem_cons_of_mem _ hmem))
        (MEv.condCreate p2 t2) (List.mem_cons_self _ _)
      simpa [MEv.time] using this
    exact lt_of_lt_of_le hb hle

/-- Witness for C1: process 0 creates the marker at second 0; process 1
observes it stale at second 61, reclaims it, and creates at second 62 —
past the 60-second lease. -/
theorem claim1_witness :
    wfB none [] [MEv.condCreate 0 0, MEv.headObs 1 61, MEv.staleDel 1 61,
      MEv.condCreate 1 62] = true ∧
    mrun none [MEv.condCreate 0 0, MEv.headObs 1 61, MEv.staleDel 1 61] = none ∧
    ((∃ q td, MEv.unlockDel q td ∈ [MEv.headObs 1 61, MEv.staleDel 1 61]) ∨
      0 + LockExpiration < 62) :=
  ⟨by decide, by decide,
   (claim1_mutual_exclusion [] [MEv.headObs 1 61, MEv.staleDel 1 61] [] 0 1 0 62
      (by intro e he; exact absurd he (List.not_mem_nil e))
      (by decide) (by decide) (by decide)).1⟩

end CMOSS
